import Mathlib

/-!
Verification of the scheduling core of listenlearn (src/main.py): the
TTSItem measure, the ReviewQueue (a deque of buckets keyed by minimum
wait time), the review pass of the settts command, and the scheduler
loop that drives them.

Queue states are modelled with value semantics as lists of buckets
(List (List TTSItem)).  Because Python list objects are mutable
references and the source builds buckets with a multiplied list
literal, a second model (PyQueue) additionally tracks object identity
of the bucket lists, so that the sharing produced by
(wait_time - len(queue)) * [[]] is visible.
-/

structure TTSItem where
  target_language_text : String
  fallback_language_text : String
  target_audio_file : String
  fallback_audio_file : String
  deriving DecidableEq, Repr

/-- The measure property of TTSItem: 1 if the target text is shorter
than 50 characters, else 2. -/
def TTSItem.measure (it : TTSItem) : Nat :=
  if it.target_language_text.length < 50 then 1 else 2

/-- The ReviewQueue deque of buckets; position = minimum wait time. -/
abbrev ReviewQueue : Type := List (List TTSItem)

/-- ReviewQueue.add: append item into the bucket at wait_time; on
IndexError, extend the deque with empty buckets and a final bucket
holding the item. -/
def ReviewQueue.add (q : ReviewQueue) (item : TTSItem) (wait_time : Nat) :
    ReviewQueue :=
  if h : wait_time < q.length then
    q.set wait_time (q[wait_time] ++ [item])
  else
    q ++ List.replicate (wait_time - q.length) [] ++ [[item]]

/-- One iteration of the loop body of ReviewQueue.progress: extend
bucket 0 by bucket 1, then delete bucket 1.  The fallthrough case is
never reached under the clamp of progress, which guarantees at least
two buckets at each iteration. -/
def mergeStep (q : ReviewQueue) : ReviewQueue :=
  match q with
  | b0 :: b1 :: rest => (b0 ++ b1) :: rest
  | other => other

/-- ReviewQueue.progress: clamp to bucket count minus one, no-op when
the effective progress is not positive, else merge that many times. -/
def ReviewQueue.progress (q : ReviewQueue) (p : Int) : ReviewQueue :=
  let effective : Int := min p ((q.length : Int) - 1)
  if effective ≤ 0 then q else mergeStep^[effective.toNat] q

/-- ReviewQueue.pop: return bucket 0 and rebind it to a new empty
list; on an empty deque return the empty list and leave the queue
unchanged.  The bucket itself is not removed. -/
def ReviewQueue.pop (q : ReviewQueue) : List TTSItem × ReviewQueue :=
  match q with
  | [] => ([], [])
  | b :: rest => (b, [] :: rest)

/-- The per-item review expansion in the review closure of
settts_command: a single target reference for measure above 1, else
target, fallback, target. -/
def expandReview (queue_item : TTSItem) : List String :=
  if 1 < queue_item.measure then
    [queue_item.target_audio_file]
  else
    [queue_item.target_audio_file, queue_item.fallback_audio_file,
      queue_item.target_audio_file]

/-- The progress amount computed in the review closure: the sum of
measures over the drained batch when the queue is longer than the
batch, else the batch size. -/
def reviewTicks (queue_len : Nat) (next_queue : List TTSItem) : Int :=
  if next_queue.length < queue_len then
    ((next_queue.map TTSItem.measure).sum : Int)
  else
    (next_queue.length : Int)

/-- Total number of items held across all buckets. -/
def totalItems (q : ReviewQueue) : Nat := (q.map List.length).sum

/-- The while loop of the review closure, with explicit fuel: while
pop returns a non-empty batch, expand each batch item onto the output
list and advance the queue by reviewTicks.  Each loop iteration
removes at least one item from the queue, so totalItems of the entry
queue is enough fuel (reviewFuel_stable below proves fuel
indifference beyond that bound). -/
def reviewFuel : Nat → ReviewQueue → List String → ReviewQueue × List String
  | 0, q, concat_list => (q, concat_list)
  | fuel + 1, q, concat_list =>
    match q with
    | [] => ([], concat_list)
    | b :: rest =>
      if b = [] then (b :: rest, concat_list)
      else
        reviewFuel fuel
          (ReviewQueue.progress ([] :: rest) (reviewTicks (rest.length + 1) b))
          (concat_list ++ b.flatMap expandReview)

/-- The review closure of settts_command. -/
def review (q : ReviewQueue) (concat_list : List String) :
    ReviewQueue × List String :=
  reviewFuel (totalItems q) q concat_list

/-- The TTSItem built for input row i of the csv file.  The constant
temporary-directory prefix of the audio file paths is omitted: it is
shared by every path of a run and does not affect scheduling. -/
def mkTTSItem (i : Nat) (row : String × String) : TTSItem :=
  { target_language_text := row.1
    fallback_language_text := row.2
    target_audio_file := "target_" ++ toString i ++ ".mp3"
    fallback_audio_file := "fallback_" ++ toString i ++ ".mp3" }

/-- The state threaded through the settts loop: the review queue and
the accumulated list of audio file references. -/
structure SchedState where
  review_queue : ReviewQueue
  concat_list : List String
  deriving DecidableEq, Repr

/-- One iteration of the settts row loop: run the review pass, append
the initial-exposure references (target, fallback, target, target),
advance the queue by the item measure, then add the item with wait
time 2. -/
def processItem (s : SchedState) (tts_item : TTSItem) : SchedState :=
  let reviewed := review s.review_queue s.concat_list
  { review_queue :=
      ReviewQueue.add
        (ReviewQueue.progress reviewed.1 (tts_item.measure : Int)) tts_item 2
    concat_list :=
      reviewed.2 ++
        [tts_item.target_audio_file, tts_item.fallback_audio_file,
          tts_item.target_audio_file, tts_item.target_audio_file] }

/-- Processing of all csv rows in order, starting from the empty
queue and empty output list. -/
def processItems (rows : List (String × String)) : SchedState :=
  (rows.enum.map (fun p => mkTTSItem p.1 p.2)).foldl processItem ⟨[], []⟩

/-- Run the review pass on a scheduler state. -/
def reviewState (s : SchedState) : SchedState :=
  ⟨(review s.review_queue s.concat_list).1,
    (review s.review_queue s.concat_list).2⟩

/-- The final drain of settts_command, with explicit fuel:
while 0 < len(review_queue): review().  Returns none when the fuel is
exhausted with the loop condition still true. -/
def drainLoop : Nat → SchedState → Option SchedState
  | 0, s => if 0 < s.review_queue.length then none else some s
  | fuel + 1, s =>
    if 0 < s.review_queue.length then drainLoop fuel (reviewState s)
    else some s

/-- The full settts scheduling run: process every row, then drain;
the produced output reference list, or none when the drain loop is
still running after fuel iterations. -/
def settts_run (fuel : Nat) (rows : List (String × String)) :
    Option (List String) :=
  (drainLoop fuel (processItems rows)).map SchedState.concat_list

/-- The settts run produces the output list out: the drain loop
finishes, with some amount of fuel, and yields out. -/
def producesOutput (rows : List (String × String)) (out : List String) :
    Prop :=
  ∃ fuel, settts_run fuel rows = some out

/-- An abstract queue operation, for properties quantified over
operation sequences. -/
inductive QueueOp where
  | addOp (item : TTSItem) (wait_time : Nat)
  | progressOp (p : Int)
  | popOp
  deriving Repr

/-- Apply one queue operation to a queue state. -/
def applyOp (q : ReviewQueue) : QueueOp → ReviewQueue
  | .addOp item w => ReviewQueue.add q item w
  | .progressOp p => ReviewQueue.progress q p
  | .popOp => (ReviewQueue.pop q).2

/-- Apply a sequence of queue operations from left to right. -/
def applyOps (q : ReviewQueue) (ops : List QueueOp) : ReviewQueue :=
  ops.foldl applyOp q

/-!
Reference-faithful model of the Python ReviewQueue: bucket lists are
heap objects named by numeric ids; the deque holds ids, possibly the
same id several times.  (wait_time - len(queue)) * [[]] in Python
builds that many references to one single empty list object, which
this model reproduces by repeating one fresh id.
-/

structure PyQueue where
  bufs : Nat → List TTSItem
  refs : List Nat
  fresh : Nat

/-- The freshly constructed ReviewQueue (empty deque). -/
def pyEmpty : PyQueue := { bufs := fun _ => [], refs := [], fresh := 0 }

/-- PyQueue.add: when the bucket at wait_time exists, append to that
object in place (visible through every alias of the object); else
extend the deque with (wait_time - len) references to one new empty
list object and one new object holding the item. -/
def PyQueue.add (s : PyQueue) (item : TTSItem) (wait_time : Nat) : PyQueue :=
  if h : wait_time < s.refs.length then
    let id := s.refs[wait_time]
    { s with bufs := fun n => if n = id then s.bufs id ++ [item] else s.bufs n }
  else
    { bufs := fun n =>
        if n = s.fresh + 1 then [item]
        else if n = s.fresh then []
        else s.bufs n
      refs := s.refs ++ List.replicate (wait_time - s.refs.length) s.fresh ++
        [s.fresh + 1]
      fresh := s.fresh + 2 }

/-- One loop iteration of PyQueue.progress: extend the object behind
bucket 0 by the contents of the object behind bucket 1 (reading the
argument first, as list.extend does), then delete bucket 1 from the
deque. -/
def pyMergeStep (s : PyQueue) : PyQueue :=
  match s.refs with
  | i0 :: i1 :: rest =>
    { s with
      bufs := fun n => if n = i0 then s.bufs i0 ++ s.bufs i1 else s.bufs n
      refs := i0 :: rest }
  | _ => s

/-- PyQueue.progress, with the same clamp as the value model. -/
def PyQueue.progress (s : PyQueue) (p : Int) : PyQueue :=
  let effective : Int := min p ((s.refs.length : Int) - 1)
  if effective ≤ 0 then s else pyMergeStep^[effective.toNat] s

/-- PyQueue.pop: return the contents of the object behind bucket 0
and rebind bucket 0 of the deque to a new empty list object; the old
object stays alive behind any alias. -/
def PyQueue.pop (s : PyQueue) : List TTSItem × PyQueue :=
  match s.refs with
  | [] => ([], s)
  | _ :: rest =>
    (s.bufs (s.refs.headD 0),
      { bufs := fun n => if n = s.fresh then [] else s.bufs n
        refs := s.fresh :: rest
        fresh := s.fresh + 1 })

/-- Sample item with a short target text (measure 1). -/
def itemX : TTSItem :=
  { target_language_text := "xx"
    fallback_language_text := "ex"
    target_audio_file := "x_t.mp3"
    fallback_audio_file := "x_f.mp3" }

/-- Second sample item with a short target text (measure 1). -/
def itemY : TTSItem :=
  { target_language_text := "yy"
    fallback_language_text := "why"
    target_audio_file := "y_t.mp3"
    fallback_audio_file := "y_f.mp3" }

/-- The two-row input of the scenario fixture: row A with the
three-character target text and row B with a sixty-character one. -/
def c3Rows : List (String × String) :=
  [("Hi.", "Hallo."),
    ("The quick brown fox jumps over the lazy dog near the river!!",
      "Der schnelle braune Fuchs.")]

/-- Sample item with a sixty-character target text (measure 2). -/
def itemLong : TTSItem :=
  { target_language_text :=
      "The quick brown fox jumps over the lazy dog near the river!!"
    fallback_language_text := "Der schnelle braune Fuchs."
    target_audio_file := "l_t.mp3"
    fallback_audio_file := "l_f.mp3" }

/-- The nine-reference output list asserted by the scenario fixture
of the spec for the two-item run. -/
def c3ClaimedList : List String :=
  ["target_0.mp3", "fallback_0.mp3", "target_0.mp3", "target_0.mp3",
    "target_1.mp3", "fallback_1.mp3", "target_1.mp3", "target_1.mp3",
    "target_0.mp3"]

/-- The measure of every item is 1 or 2, hence positive. -/
theorem measure_pos (it : TTSItem) : 1 ≤ it.measure := by
  unfold TTSItem.measure
  split <;> omega

/-- A batch never outweighs the sum of its measures. -/
theorem length_le_sum_measure (l : List TTSItem) :
    l.length ≤ (l.map TTSItem.measure).sum := by
  induction l with
  | nil => simp
  | cons a tl ih =>
    have := measure_pos a
    simp only [List.map_cons, List.sum_cons, List.length_cons]
    omega

/-- add always yields a queue of length max L (w + 1). -/
theorem add_length (q : ReviewQueue) (item : TTSItem) (w : Nat) :
    (ReviewQueue.add q item w).length = max q.length (w + 1) := by
  unfold ReviewQueue.add
  split
  · rename_i h
    simp [List.length_set]
    omega
  · rename_i h
    simp [List.length_append, List.length_replicate]
    omega

/-- add appends the item at the end of the bucket at position w. -/
theorem add_getD (q : ReviewQueue) (item : TTSItem) (w : Nat) :
    (ReviewQueue.add q item w).getD w [] = q.getD w [] ++ [item] := by
  unfold ReviewQueue.add
  split
  · rename_i h
    simp [List.getD_eq_getElem?_getD, List.getElem?_set_self h,
      List.getElem?_eq_getElem h]
  · rename_i h
    push_neg at h
    have hq : q.getD w [] = [] := by
      simp [List.getD_eq_getElem?_getD, List.getElem?_eq_none h]
    have h2 : (q ++ List.replicate (w - q.length) ([] : List TTSItem)).length ≤ w := by
      simp
      omega
    have hA : (q ++ List.replicate (w - q.length) ([] : List TTSItem)).length = w := by
      simp
      omega
    rw [hq, List.getD_eq_getElem?_getD, List.getElem?_append_right h2, hA,
      Nat.sub_self]
    simp

/-- k merge steps on a queue with at least k + 1 buckets concatenate
the first k + 1 buckets into bucket 0 in index order and keep the
remaining buckets. -/
theorem mergeStep_iterate (k : Nat) (q : ReviewQueue) (h : k + 1 ≤ q.length) :
    mergeStep^[k] q = (q.take (k + 1)).flatten :: q.drop (k + 1) := by
  induction k generalizing q with
  | zero =>
    cases q with
    | nil => simp at h
    | cons b rest => simp
  | succ k ih =>
    cases q with
    | nil => simp at h
    | cons b0 q1 =>
      cases q1 with
      | nil => simp at h
      | cons b1 rest =>
        rw [Function.iterate_succ_apply]
        have hstep : mergeStep (b0 :: b1 :: rest) = (b0 ++ b1) :: rest := rfl
        rw [hstep, ih ((b0 ++ b1) :: rest) (by simp at h ⊢; omega)]
        simp [List.append_assoc]

/-- progress is the identity when the effective clamp is not
positive. -/
theorem progress_of_nonpos (q : ReviewQueue) (p : Int)
    (h : min p ((q.length : Int) - 1) ≤ 0) : ReviewQueue.progress q p = q := by
  simp only [ReviewQueue.progress]
  rw [if_pos h]

/-- progress with a positive effective clamp merges the first
effective + 1 buckets into bucket 0. -/
theorem progress_eq_flatten (q : ReviewQueue) (p : Int)
    (h : 0 < min p ((q.length : Int) - 1)) :
    ReviewQueue.progress q p =
      (q.take ((min p ((q.length : Int) - 1)).toNat + 1)).flatten ::
        q.drop ((min p ((q.length : Int) - 1)).toNat + 1) := by
  simp only [ReviewQueue.progress]
  rw [if_neg (by omega)]
  apply mergeStep_iterate
  have h1 : min p ((q.length : Int) - 1) ≤ (q.length : Int) - 1 :=
    min_le_right _ _
  omega

/-- The bucket count after progress: the effective clamp is
subtracted, counting nonpositive clamps as zero. -/
theorem progress_length (q : ReviewQueue) (p : Int) :
    (ReviewQueue.progress q p).length =
      q.length - (min p ((q.length : Int) - 1)).toNat := by
  by_cases h : min p ((q.length : Int) - 1) ≤ 0
  · rw [progress_of_nonpos q p h]
    have h0 : (min p ((q.length : Int) - 1)).toNat = 0 := by omega
    omega
  · push_neg at h
    rw [progress_eq_flatten q p h]
    have h1 : min p ((q.length : Int) - 1) ≤ (q.length : Int) - 1 :=
      min_le_right _ _
    simp [List.length_drop]
    omega

/-- progress never empties a non-empty queue: the clamp keeps at
least one bucket. -/
theorem progress_ge_one (q : ReviewQueue) (p : Int) (h : 1 ≤ q.length) :
    1 ≤ (ReviewQueue.progress q p).length := by
  rw [progress_length]
  have h1 : min p ((q.length : Int) - 1) ≤ (q.length : Int) - 1 :=
    min_le_right _ _
  omega

/-- One merge step moves items between buckets without changing the
total number of items. -/
theorem totalItems_mergeStep (q : ReviewQueue) :
    totalItems (mergeStep q) = totalItems q := by
  unfold mergeStep
  split
  · simp [totalItems]
    omega
  · rfl

/-- Iterated merge steps keep the total number of items. -/
theorem totalItems_iterate (k : Nat) (q : ReviewQueue) :
    totalItems (mergeStep^[k] q) = totalItems q := by
  induction k generalizing q with
  | zero => rfl
  | succ k ih => rw [Function.iterate_succ_apply, ih, totalItems_mergeStep]

/-- progress keeps the total number of items. -/
theorem totalItems_progress (q : ReviewQueue) (p : Int) :
    totalItems (ReviewQueue.progress q p) = totalItems q := by
  simp only [ReviewQueue.progress]
  split
  · rfl
  · exact totalItems_iterate _ _

/-- The review pass body keeps a non-empty queue non-empty. -/
theorem reviewFuel_fst_len (fuel : Nat) :
    ∀ q acc, 1 ≤ q.length → 1 ≤ (reviewFuel fuel q acc).1.length := by
  induction fuel with
  | zero =>
    intro q acc h
    simpa [reviewFuel] using h
  | succ fuel ih =>
    intro q acc h
    match q with
    | [] => simp at h
    | b :: rest =>
      simp only [reviewFuel]
      split
      · simp
      · exact ih _ _ (progress_ge_one _ _ (by simp))

/-- The review pass keeps a non-empty queue non-empty. -/
theorem review_fst_len (q : ReviewQueue) (acc : List String)
    (h : 1 ≤ q.length) : 1 ≤ (review q acc).1.length :=
  reviewFuel_fst_len _ _ _ h

/-- Adding fuel beyond the total item count does not change the
result of the review pass loop. -/
theorem reviewFuel_stable (fuel : Nat) :
    ∀ q acc, totalItems q ≤ fuel →
      reviewFuel (fuel + 1) q acc = reviewFuel fuel q acc := by
  induction fuel with
  | zero =>
    intro q acc h
    match q with
    | [] => rfl
    | b :: rest =>
      have hb : b = [] := by
        have hh : b.length + totalItems rest ≤ 0 := by
          simpa [totalItems] using h
        have : b.length = 0 := by omega
        exact List.length_eq_zero.mp this
      subst hb
      simp [reviewFuel]
  | succ fuel ih =>
    intro q acc h
    match q with
    | [] => rfl
    | b :: rest =>
      by_cases hb : b = []
      · subst hb
        simp [reviewFuel]
      · simp only [reviewFuel, if_neg hb]
        apply ih
        rw [totalItems_progress]
        have hlen : 1 ≤ b.length := by
          cases b with
          | nil => exact absurd rfl hb
          | cons x xs => simp
        have hh : b.length + totalItems rest ≤ fuel + 1 := by
          simpa [totalItems] using h
        have hrest : totalItems (([] : List TTSItem) :: rest) = totalItems rest := by
          simp [totalItems]
        rw [hrest]
        omega

/-- Any fuel at least the total item count computes the review
pass. -/
theorem reviewFuel_eq_review (fuel : Nat) (q : ReviewQueue)
    (acc : List String) (h : totalItems q ≤ fuel) :
    reviewFuel fuel q acc = review q acc := by
  obtain ⟨k, rfl⟩ := Nat.exists_eq_add_of_le h
  induction k with
  | zero => rfl
  | succ k ih =>
    have hstep : totalItems q + (k + 1) = (totalItems q + k) + 1 := by omega
    rw [hstep, reviewFuel_stable _ _ _ (by omega)]
    exact ih (by omega)

/-- Once the queue is non-empty, the final drain loop runs out of any
amount of fuel: its condition never becomes false. -/
theorem drainLoop_none (fuel : Nat) :
    ∀ s, 1 ≤ s.review_queue.length → drainLoop fuel s = none := by
  induction fuel with
  | zero =>
    intro s h
    simp only [drainLoop]
    rw [if_pos (by omega)]
  | succ fuel ih =>
    intro s h
    simp only [drainLoop]
    rw [if_pos (by omega)]
    exact ih _ (review_fst_len _ _ h)

/-- Each row iteration ends with an add at wait time 2, leaving at
least three buckets. -/
theorem processItem_len (s : SchedState) (tts_item : TTSItem) :
    3 ≤ (processItem s tts_item).review_queue.length := by
  simp only [processItem]
  rw [add_length]
  exact le_max_right _ _

/-- Folding the row loop over a non-empty item list leaves a
non-empty queue. -/
theorem foldl_processItem_len (l : List TTSItem) :
    ∀ s : SchedState, l ≠ [] →
      1 ≤ (l.foldl processItem s).review_queue.length := by
  induction l with
  | nil => intro s h; exact absurd rfl h
  | cons it tl ih =>
    intro s h
    simp only [List.foldl_cons]
    cases tl with
    | nil =>
      simp only [List.foldl_nil]
      have := processItem_len s it
      omega
    | cons it2 tl2 => exact ih _ (by simp)

/-- Processing a non-empty row list leaves a non-empty queue. -/
theorem processItems_len (rows : List (String × String)) (h : rows ≠ []) :
    1 ≤ (processItems rows).review_queue.length := by
  unfold processItems
  apply foldl_processItem_len
  cases rows with
  | nil => exact absurd rfl h
  | cons r tl => simp [List.enum]

/-- Keeping the queue non-empty under a whole operation sequence. -/
theorem applyOps_len (ops : List QueueOp) :
    ∀ q : ReviewQueue, 1 ≤ q.length → 1 ≤ (applyOps q ops).length := by
  induction ops with
  | nil => intro q h; exact h
  | cons op tl ih =>
    intro q h
    have hstep : 1 ≤ (applyOp q op).length := by
      cases op with
      | addOp item w =>
        simp only [applyOp]
        rw [add_length]
        exact le_trans h (le_max_left _ _)
      | progressOp p => exact progress_ge_one q p h
      | popOp =>
        simp only [applyOp]
        cases q with
        | nil => simp at h
        | cons b rest => simp [ReviewQueue.pop]
    exact ih (applyOp q op) hstep

/-- C1: the spec states that after all input rows are consumed the
final drain loop terminates with every introduced item reviewed.  The
code diverges instead: for every non-empty input, once the first item
has been added the bucket count never drops below one (progress is
clamped to bucket_count - 1 and pop keeps the bucket), so the loop
condition 0 < len(review_queue) of settts_command stays true forever
and no output reference list is ever produced. -/
theorem claim1_final_drain_diverges (rows : List (String × String))
    (h : rows ≠ []) (fuel : Nat) : settts_run fuel rows = none := by
  unfold settts_run
  rw [drainLoop_none fuel _ (processItems_len rows h)]
  rfl

/-- Witness for C1 at a one-row input, with fuel 1000. -/
theorem claim1_witness : settts_run 1000 [("Hi.", "Hallo.")] = none :=
  claim1_final_drain_diverges [("Hi.", "Hallo.")] (by simp) 1000

/-- C2: once the queue is non-empty, every sequence of add, progress
and pop operations keeps it non-empty: add never decreases the bucket
count, pop preserves it, and progress removes at most
bucket_count - 1 buckets because of its clamp. -/
theorem claim2_nonempty_invariant (q : ReviewQueue) (ops : List QueueOp)
    (h : 1 ≤ q.length) :
    (∀ (q2 : ReviewQueue) (item : TTSItem) (w : Nat),
      q2.length ≤ (ReviewQueue.add q2 item w).length) ∧
    (∀ q2 : ReviewQueue, ((ReviewQueue.pop q2).2).length = q2.length) ∧
    (∀ (q2 : ReviewQueue) (p : Int),
      q2.length - (ReviewQueue.progress q2 p).length ≤ q2.length - 1) ∧
    1 ≤ (applyOps q ops).length := by
  refine ⟨?_, ?_, ?_, applyOps_len ops q h⟩
  · intro q2 item w
    rw [add_length]
    exact le_max_left _ _
  · intro q2
    cases q2 <;> simp [ReviewQueue.pop]
  · intro q2 p
    rw [progress_length]
    have h1 : min p ((q2.length : Int) - 1) ≤ (q2.length : Int) - 1 :=
      min_le_right _ _
    omega

/-- Witness for C2 on the singleton queue and a pop. -/
theorem claim2_witness : 1 ≤ (applyOps [[itemX]] [QueueOp.popOp]).length :=
  (claim2_nonempty_invariant [[itemX]] [QueueOp.popOp] (by simp)).2.2.2

/-- C3 counterexample: the two-item run of the scenario never
produces the nine-reference list stated by the claim, because the
final drain loop never terminates on this input. -/
theorem claim3_counterexample : ¬ producesOutput c3Rows c3ClaimedList := by
  intro hp
  obtain ⟨fuel, hf⟩ := hp
  have hnone : settts_run fuel c3Rows = none := by
    unfold settts_run
    rw [drainLoop_none fuel _ (processItems_len c3Rows (by simp [c3Rows]))]
    rfl
  rw [hnone] at hf
  exact Option.noConfusion hf

/-- C3 amended: on the two-item input the run never completes (no
fuel suffices for the final drain); the output list when the drain
starts holds the two four-reference initial exposures, and the first
drain review pass extends it with the three-reference review of the
weight-1 item A (target, fallback, target) while item B is still
queued, so the nine-reference list of the claim is never reached. -/
theorem claim3_output_diverges (fuel : Nat) :
    settts_run fuel c3Rows = none ∧
    (processItems c3Rows).concat_list =
      ["target_0.mp3", "fallback_0.mp3", "target_0.mp3", "target_0.mp3",
        "target_1.mp3", "fallback_1.mp3", "target_1.mp3", "target_1.mp3"] ∧
    (review (processItems c3Rows).review_queue
        (processItems c3Rows).concat_list).2 =
      ["target_0.mp3", "fallback_0.mp3", "target_0.mp3", "target_0.mp3",
        "target_1.mp3", "fallback_1.mp3", "target_1.mp3", "target_1.mp3",
        "target_0.mp3", "fallback_0.mp3", "target_0.mp3"] := by
  refine ⟨?_, by decide, by decide⟩
  unfold settts_run
  rw [drainLoop_none fuel _ (processItems_len c3Rows (by simp [c3Rows]))]
  rfl

/-- C4: once the queue is not longer than the drained batch, the
coarse advance by the batch size and the precise advance by the
summed measures produce the same queue. -/
theorem claim4_coarse_advance_eq (q : ReviewQueue) (batch : List TTSItem)
    (_hne : batch ≠ []) (hlen : q.length ≤ batch.length) :
    ReviewQueue.progress q (batch.length : Int) =
      ReviewQueue.progress q (((batch.map TTSItem.measure).sum : Nat) : Int) := by
  have hsum : batch.length ≤ (batch.map TTSItem.measure).sum :=
    length_le_sum_measure batch
  have hmin : min ((batch.length : Nat) : Int) ((q.length : Int) - 1) =
      min (((batch.map TTSItem.measure).sum : Nat) : Int)
        ((q.length : Int) - 1) := by
    omega
  simp only [ReviewQueue.progress]
  rw [hmin]

/-- Witness for C4 on a one-bucket queue and a one-item batch. -/
theorem claim4_witness :
    ReviewQueue.progress [[itemX]] (([itemY].length : Nat) : Int) =
      ReviewQueue.progress [[itemX]]
        ((([itemY].map TTSItem.measure).sum : Nat) : Int) :=
  claim4_coarse_advance_eq [[itemX]] [itemY] (by simp) (by simp)

/-- C5: add always succeeds, the new length is max L (w + 1), and the
item is appended at the end of the bucket at position w. -/
theorem claim5_add_shape (q : ReviewQueue) (item : TTSItem) (w : Nat) :
    (ReviewQueue.add q item w).length = max q.length (w + 1) ∧
    (ReviewQueue.add q item w).getD w [] = q.getD w [] ++ [item] :=
  ⟨add_length q item w, add_getD q item w⟩

/-- C6: progress computes the effective ticks min n (L - 1); when
that is not positive the queue is unchanged, and in general the new
length is L minus the effective ticks (clamped at zero). -/
theorem claim6_advance_clamp (q : ReviewQueue) (p : Int) :
    (ReviewQueue.progress q p).length =
      q.length - (min p ((q.length : Int) - 1)).toNat ∧
    (min p ((q.length : Int) - 1) ≤ 0 → ReviewQueue.progress q p = q) :=
  ⟨progress_length q p, progress_of_nonpos q p⟩

/-- Witness for C6 on a two-bucket queue with negative ticks. -/
theorem claim6_witness :
    (ReviewQueue.progress [[itemX], [itemY]] (-2)).length =
      ([[itemX], [itemY]] : ReviewQueue).length -
        (min (-2) ((([[itemX], [itemY]] : ReviewQueue).length : Int) - 1)).toNat ∧
    ReviewQueue.progress [[itemX], [itemY]] (-2) = [[itemX], [itemY]] :=
  ⟨(claim6_advance_clamp [[itemX], [itemY]] (-2)).1,
    (claim6_advance_clamp [[itemX], [itemY]] (-2)).2 (by decide)⟩

/-- C7: items added to the same bucket keep insertion order, pop
drains bucket 0 as is, and a positive advance concatenates the due
buckets into bucket 0 in bucket-index order. -/
theorem claim7_order_preservation (q : ReviewQueue) (item1 item2 : TTSItem)
    (w : Nat) (p : Int) :
    (ReviewQueue.add (ReviewQueue.add q item1 w) item2 w).getD w [] =
      q.getD w [] ++ [item1, item2] ∧
    (ReviewQueue.pop q).1 = q.getD 0 [] ∧
    (0 < min p ((q.length : Int) - 1) →
      ReviewQueue.progress q p =
        (q.take ((min p ((q.length : Int) - 1)).toNat + 1)).flatten ::
          q.drop ((min p ((q.length : Int) - 1)).toNat + 1)) := by
  refine ⟨?_, ?_, progress_eq_flatten q p⟩
  · rw [add_getD, add_getD, List.append_assoc]
    rfl
  · cases q <;> simp [ReviewQueue.pop]

/-- Witness for C7: drains and advances on concrete queues. -/
theorem claim7_witness :
    (ReviewQueue.pop [[itemX]]).1 = ([[itemX]] : ReviewQueue).getD 0 [] ∧
    ReviewQueue.progress [[itemX], [itemY]] 1 =
      (([[itemX], [itemY]] : ReviewQueue).take
        ((min 1 ((([[itemX], [itemY]] : ReviewQueue).length : Int) - 1)).toNat
          + 1)).flatten ::
      ([[itemX], [itemY]] : ReviewQueue).drop
        ((min 1 ((([[itemX], [itemY]] : ReviewQueue).length : Int) - 1)).toNat
          + 1) :=
  ⟨(claim7_order_preservation [[itemX]] itemX itemY 0 1).2.1,
    (claim7_order_preservation [[itemX], [itemY]] itemX itemY 0 1).2.2
      (by decide)⟩

/-- C8: pop is total: it returns the contents of bucket 0 (empty for
the empty queue), keeps the bucket count, and a second pop returns
the empty list and changes nothing. -/
theorem claim8_pop_total (q : ReviewQueue) :
    (ReviewQueue.pop q).1 = q.headD [] ∧
    ((ReviewQueue.pop q).2).length = q.length ∧
    (ReviewQueue.pop ((ReviewQueue.pop q).2)).1 = [] ∧
    (ReviewQueue.pop ((ReviewQueue.pop q).2)).2 = (ReviewQueue.pop q).2 := by
  cases q <;> simp [ReviewQueue.pop]

/-- C9: conservation fails in the code.  Because
(wait_time - len(queue)) * [[]] multiplies one list literal, add with
a large wait time fills the queue with aliases of a single bucket
object; a later add through such an alias lands the item in every
aliased bucket at once, and pop then returns that item repeatedly.
Adding itemX at wait time 5 and itemY at wait time 2 to a fresh
queue, two successive drains (with one progress tick between them)
each return itemY, so an item added once is returned by two
drain_due calls. -/
theorem claim9_conservation_fails :
    (PyQueue.pop (PyQueue.add (PyQueue.add pyEmpty itemX 5) itemY 2)).1 =
      [itemY] ∧
    (PyQueue.pop (PyQueue.progress
        (PyQueue.pop (PyQueue.add (PyQueue.add pyEmpty itemX 5) itemY 2)).2
        1)).1 = [itemY] := by
  constructor <;> rfl

/-- C10: the review expansion is a pure function of the measure: a
single target reference for measure 2, target-fallback-target for
measure 1; and each introduction appends the four-reference initial
exposure to the output while the queue add happens on top of that
state. -/
theorem claim10_playback_expansion (queue_item : TTSItem) (s : SchedState)
    (tts_item : TTSItem) :
    (queue_item.measure = 1 ∨ queue_item.measure = 2) ∧
    (queue_item.measure = 2 →
      expandReview queue_item = [queue_item.target_audio_file]) ∧
    (queue_item.measure = 1 →
      expandReview queue_item =
        [queue_item.target_audio_file, queue_item.fallback_audio_file,
          queue_item.target_audio_file]) ∧
    (processItem s tts_item).concat_list =
      (review s.review_queue s.concat_list).2 ++
        [tts_item.target_audio_file, tts_item.fallback_audio_file,
          tts_item.target_audio_file, tts_item.target_audio_file] ∧
    (processItem s tts_item).review_queue =
      ReviewQueue.add
        (ReviewQueue.progress (review s.review_queue s.concat_list).1
          (tts_item.measure : Int)) tts_item 2 := by
  refine ⟨?_, ?_, ?_, rfl, rfl⟩
  · unfold TTSItem.measure
    split
    · exact Or.inl rfl
    · exact Or.inr rfl
  · intro h
    unfold expandReview
    rw [h]
    simp
  · intro h
    unfold expandReview
    rw [h]
    simp

/-- Witness for C10 at a short and a long item. -/
theorem claim10_witness :
    expandReview itemX =
      [itemX.target_audio_file, itemX.fallback_audio_file,
        itemX.target_audio_file] ∧
    expandReview itemLong = [itemLong.target_audio_file] :=
  ⟨(claim10_playback_expansion itemX ⟨[], []⟩ itemX).2.2.1 (by decide),
    (claim10_playback_expansion itemLong ⟨[], []⟩ itemLong).2.1 (by decide)⟩

